import Mathlib

/-!
Verification of the token-rate benchmark core in
`model_token_rate_test.py` (class `TokenRateTester`).

The embedding below translates, from the source:
  * `call_model_api`   — single-probe HTTP call and response classification;
  * `test_concurrency` — the per-level fold over the gathered probe
    responses producing a `TestResult`;
  * `run_all_tests`    — the sweep over the configured concurrency levels;
  * `generate_text_report` — the aggregate statistics computed for the
    report (totals, per-level success rates, best level, scaling
    efficiency).

Times and rates are modelled with `Rat` (the Python floats carry exact
small values in every scenario of interest here); machine-level float
rounding is not modelled.  JSON payloads are modelled by the inductive
`JsonVal`; `json.loads` is modelled by the `Option JsonVal` component of a
`Body` (`none` when `json.loads` raises).
-/

/-- A JSON value, as produced by `json.loads`. -/
inductive JsonVal where
  | jnull
  | jbool (b : Bool)
  | jstr (s : String)
  | jnum (n : Int)
  | jarr (elems : List JsonVal)
  | jobj (fields : List (String × JsonVal))

/-- Lookup of a key in the field list of a JSON object (first match wins,
as in a Python dict where keys are unique). -/
def lookupField : List (String × JsonVal) → String → Option JsonVal
  | [], _ => none
  | (k, v) :: rest, key => if k = key then some v else lookupField rest key

/-- `data[key]` on a JSON value: `some` only when `data` is an object
containing `key`; `none` models the `KeyError`/`TypeError` raised
otherwise. -/
def getKey : JsonVal → String → Option JsonVal
  | .jobj fields, key => lookupField fields key
  | _, _ => none

/-- `data[i]` on a JSON value: `some` only when `data` is an array with an
`i`-th element; `none` models the raised `IndexError`/`TypeError`.
(Python string indexing is not modelled; no claim depends on it.) -/
def getIdx : JsonVal → Nat → Option JsonVal
  | .jarr elems, i => elems.get? i
  | _, _ => none

/-- `response_data['choices'][0]['message']['content']` from
`call_model_api`; `none` models any exception raised along the chain. -/
def extractContent (data : JsonVal) : Option JsonVal :=
  ((getKey data "choices").bind (fun c => getIdx c 0)).bind
    (fun m => (getKey m "message").bind (fun msg => getKey msg "content"))

/-- `usage = response_data.get('usage', {}); tokens = usage.get('total_tokens', 0)`
from `call_model_api`.  `none` models the `AttributeError` raised when
`.get` is called on a non-dict.  A present but non-numeric
`total_tokens` is modelled as 0 (Python would return the raw value, which
would only poison the later `+=` in `test_concurrency`; no claim reaches
that case). -/
def extractTokens (data : JsonVal) : Option Int :=
  match data with
  | .jobj fields =>
    match lookupField fields "usage" with
    | none => some 0
    | some (.jobj ufields) =>
      match lookupField ufields "total_tokens" with
      | some (.jnum n) => some n
      | some _ => some 0
      | none => some 0
    | some _ => none
  | _ => none

/-- The body of an HTTP response as seen by `call_model_api`:
`undecodable` models `await response.text()` raising a decode error;
`text raw parsed` carries the decoded text together with the result of
`json.loads(raw)` (`none` when parsing raises). -/
inductive Body where
  | undecodable
  | text (raw : String) (parsed : Option JsonVal)

/-- The dict returned by `call_model_api`: the `success=True` dict with
content, token count and response time, or the `success=False` dict with
an error string and response time.  The function is total: every failure
path of the Python code is caught by its `try`/`except` and returned as a
value. -/
inductive ApiResult where
  | ok (content : JsonVal) (tokens : Int) (response_time : Rat)
  | err (error : String) (response_time : Rat)

/-- `TokenRateTester.call_model_api`, lines 93–129.  `status` and `body`
stand for the HTTP response; `rt` is the measured `end_time - start_time`.
Exception strings for the caught `json.loads` / subscript / `.get` faults
are modelled by their Python exception class names. -/
def call_model_api (status : Nat) (body : Body) (rt : Rat) : ApiResult :=
  match body with
  | .undecodable => .err "UnicodeDecodeError" rt
  | .text raw parsed =>
    if status = 200 then
      match parsed with
      | none => .err "JSONDecodeError" rt
      | some data =>
        match extractContent data with
        | none => .err "KeyError" rt
        | some content =>
          match extractTokens data with
          | none => .err "AttributeError" rt
          | some tokens => .ok content tokens rt
    else
      .err (s!"HTTP {status}: {raw}") rt

/-- One element of the list returned by
`asyncio.gather(*tasks, return_exceptions=True)` in `test_concurrency`:
an exception object, a dict, or an unexpected value of another type.
A dict is represented by the values `test_concurrency` reads from it:
`.get('success')` (missing key → falsy → `false`), `.get('tokens', 0)`,
`.get('response_time', 0)`. -/
inductive ProbeResponse where
  | exn (msg : String)
  | dict (success : Bool) (tokens : Int) (response_time : Rat)
  | other
deriving DecidableEq

/-- The dict built by `call_model_api`, viewed through the keys
`test_concurrency` reads. -/
def toProbeResponse : ApiResult → ProbeResponse
  | .ok _ tokens rt => .dict true tokens rt
  | .err _ rt => .dict false 0 rt

/-- Whether `test_concurrency` counts a gathered response as a success:
it must be a dict whose `success` entry is truthy. -/
def isSuccessResp : ProbeResponse → Bool
  | .dict success _ _ => success
  | _ => false

/-- The accumulator of the analysis loop of `test_concurrency`
(lines 149–173): `total_tokens`, `success_count`, `error_count`,
`response_times`. -/
structure Analysis where
  total_tokens : Int
  success_count : Nat
  error_count : Nat
  response_times : List Rat
deriving DecidableEq

/-- One iteration of the `for i, response in enumerate(responses)` loop of
`test_concurrency`: an exception counts as an error; a dict with truthy
`success` counts as a success and contributes its tokens and response
time; any other dict and any non-dict count as errors.  (The success
branch also writes the response content to a file — I/O with no effect on
the result.) -/
def stepResponse (a : Analysis) (r : ProbeResponse) : Analysis :=
  match r with
  | .exn _ => { a with error_count := a.error_count + 1 }
  | .dict success tokens rt =>
    if success then
      { a with
        success_count := a.success_count + 1,
        total_tokens := a.total_tokens + tokens,
        response_times := a.response_times ++ [rt] }
    else
      { a with error_count := a.error_count + 1 }
  | .other => { a with error_count := a.error_count + 1 }

/-- The whole analysis loop of `test_concurrency`. -/
def analyzeResponses (responses : List ProbeResponse) : Analysis :=
  responses.foldl stepResponse ⟨0, 0, 0, []⟩

/-- The `TestResult` dataclass (lines 40–51). -/
structure TestResult where
  concurrency : Nat
  total_tokens : Int
  total_time : Rat
  tokens_per_second : Rat
  success_count : Nat
  error_count : Nat
  avg_response_time : Rat
  min_response_time : Rat
  max_response_time : Rat
deriving DecidableEq

/-- Python `min` over a non-empty list (the caller guards emptiness). -/
def listMin : List Rat → Rat
  | [] => 0
  | x :: xs => xs.foldl min x

/-- Python `max` over a non-empty list (the caller guards emptiness). -/
def listMax : List Rat → Rat
  | [] => 0
  | x :: xs => xs.foldl max x

/-- `TokenRateTester.test_concurrency`, lines 131–193: fold the gathered
responses and build the `TestResult`.  `responses` is the list returned by
`asyncio.gather` (one element per launched task) and `total_time` the
measured batch wall-clock time `end_time - start_time`. -/
def test_concurrency (concurrency : Nat) (responses : List ProbeResponse)
    (total_time : Rat) : TestResult :=
  let a := analyzeResponses responses
  { concurrency := concurrency
    total_tokens := a.total_tokens
    total_time := total_time
    tokens_per_second := if total_time > 0 then (a.total_tokens : Rat) / total_time else 0
    success_count := a.success_count
    error_count := a.error_count
    avg_response_time :=
      if a.response_times = [] then 0
      else a.response_times.sum / (a.response_times.length : Rat)
    min_response_time := if a.response_times = [] then 0 else listMin a.response_times
    max_response_time := if a.response_times = [] then 0 else listMax a.response_times }

/-- The configured sweep levels of `run_all_tests` (line 215). -/
def concurrency_levels : List Nat := [1, 2, 4, 8, 10]

/-- `TokenRateTester.run_all_tests`, lines 213–227: run `test_concurrency`
for every configured level in order.  The loop body is wrapped in
`try`/`except` that only logs and continues, and `test_concurrency`
returns normally whatever the individual probe outcomes are, so every
level contributes exactly one `TestResult` to `self.results`; nothing
stops the sweep after a level whose probes all failed.  `probes c` is the
gathered response list at level `c` and `elapsed c` its batch wall-clock
time. -/
def run_all_tests (levels : List Nat) (probes : Nat → List ProbeResponse)
    (elapsed : Nat → Rat) : List TestResult :=
  levels.map (fun c => test_concurrency c (probes c) (elapsed c))

/-- The scaling-efficiency computation of `generate_text_report`,
lines 306–308:
`expected = baseline.tokens_per_second * concurrency`,
`actual = result.tokens_per_second * concurrency`,
`efficiency = actual / expected * 100 if expected > 0 else 0`. -/
def scalingEfficiency (baseline_tps tps : Rat) (concurrency : Nat) : Rat :=
  let expected_tokens := baseline_tps * (concurrency : Rat)
  let actual_tokens := tps * (concurrency : Rat)
  if expected_tokens > 0 then actual_tokens / expected_tokens * 100 else 0

/-- `best_concurrency = max(self.results, key=lambda x: x.tokens_per_second)`
(line 298) for a non-empty result list `r :: rs`: Python `max` scans left
to right and replaces the current best only on a strictly greater key, so
the first occurrence of the maximum wins. -/
def bestResult (r : TestResult) (rs : List TestResult) : TestResult :=
  rs.foldl (fun acc x => if x.tokens_per_second > acc.tokens_per_second then x else acc) r

/-- One line of the scalability section of the report: a level and its
efficiency percentage. -/
structure ScalabilityEntry where
  concurrency : Nat
  efficiency : Rat
deriving DecidableEq

/-- Every aggregate value computed by `generate_text_report`
(lines 248–318) from `self.results`: overall totals and success rate,
per-level success rates, the best level (Python `max` raises on an empty
list, modelled by `Option`), and the scalability entries computed against
`self.results[0]` as baseline for the remaining levels. -/
structure ReportSummary where
  total_requests : Nat
  total_success : Nat
  total_errors : Nat
  success_rate : Rat
  level_success_rates : List Rat
  best : Option TestResult
  scalability : List ScalabilityEntry
deriving DecidableEq

/-- The per-level success rate printed in the detail table
(lines 281–282). -/
def levelSuccessRate (r : TestResult) : Rat :=
  if r.success_count + r.error_count > 0 then
    ((r.success_count : Rat) / ((r.success_count : Rat) + (r.error_count : Rat))) * 100
  else 0

/-- The aggregation performed by `generate_text_report` over
`self.results`. -/
def computeSummary (results : List TestResult) : ReportSummary :=
  let total_requests := (results.map (fun r => r.success_count + r.error_count)).sum
  let total_success := (results.map (fun r => r.success_count)).sum
  let total_errors := (results.map (fun r => r.error_count)).sum
  { total_requests := total_requests
    total_success := total_success
    total_errors := total_errors
    success_rate :=
      if total_requests > 0 then ((total_success : Rat) / (total_requests : Rat)) * 100 else 0
    level_success_rates := results.map levelSuccessRate
    best :=
      match results with
      | [] => none
      | r :: rs => some (bestResult r rs)
    scalability :=
      match results with
      | [] => []
      | baseline :: rest =>
        rest.map (fun r =>
          ⟨r.concurrency,
           scalingEfficiency baseline.tokens_per_second r.tokens_per_second r.concurrency⟩) }

/-- The data underlying one rendered text report: the header timestamp
(`datetime.now()` at call time — the only input besides the results) and
the aggregate statistics.  Everything else in the report text is constant
or comes from the immutable config. -/
structure ReportData where
  timestamp : String
  summary : ReportSummary
deriving DecidableEq

/-- `generate_text_report` viewed as a function of its two inputs: the
clock reading and the accumulated results. -/
def generateReportData (now : String) (results : List TestResult) : ReportData :=
  { timestamp := now, summary := computeSummary results }

/-! ### Characterization of the analysis fold -/

/-- The token counts of the success responses, in order. -/
def successTokenList (rs : List ProbeResponse) : List Int :=
  rs.filterMap fun r =>
    match r with
    | .dict true tokens _ => some tokens
    | _ => none

/-- The response times of the success responses, in order. -/
def successTimeList (rs : List ProbeResponse) : List Rat :=
  rs.filterMap fun r =>
    match r with
    | .dict true _ rt => some rt
    | _ => none

lemma foldl_step_counts (rs : List ProbeResponse) :
    ∀ a : Analysis,
      (rs.foldl stepResponse a).success_count + (rs.foldl stepResponse a).error_count
        = a.success_count + a.error_count + rs.length := by
  induction rs with
  | nil => intro a; simp
  | cons r rs ih =>
    intro a
    rw [List.foldl_cons]
    have h := ih (stepResponse a r)
    rcases r with m | ⟨b, tok, rt⟩ | _
    · simp [stepResponse] at h ⊢; omega
    · cases b <;> simp [stepResponse] at h ⊢ <;> omega
    · simp [stepResponse] at h ⊢; omega

lemma foldl_step_tokens (rs : List ProbeResponse) :
    ∀ a : Analysis,
      (rs.foldl stepResponse a).total_tokens = a.total_tokens + (successTokenList rs).sum := by
  induction rs with
  | nil => intro a; simp [successTokenList]
  | cons r rs ih =>
    intro a
    rw [List.foldl_cons]
    have h := ih (stepResponse a r)
    rcases r with m | ⟨b, tok, rt⟩ | _
    · simp [stepResponse, successTokenList] at h ⊢; omega
    · cases b <;> simp [stepResponse, successTokenList] at h ⊢ <;> omega
    · simp [stepResponse, successTokenList] at h ⊢; omega

lemma foldl_step_times (rs : List ProbeResponse) :
    ∀ a : Analysis,
      (rs.foldl stepResponse a).response_times = a.response_times ++ successTimeList rs := by
  induction rs with
  | nil => intro a; simp [successTimeList]
  | cons r rs ih =>
    intro a
    rw [List.foldl_cons]
    have h := ih (stepResponse a r)
    rcases r with m | ⟨b, tok, rt⟩ | _
    · simpa [stepResponse, successTimeList] using h
    · cases b <;> simpa [stepResponse, successTimeList] using h
    · simpa [stepResponse, successTimeList] using h

lemma foldl_step_success (rs : List ProbeResponse) :
    ∀ a : Analysis,
      (rs.foldl stepResponse a).success_count
        = a.success_count + (successTimeList rs).length := by
  induction rs with
  | nil => intro a; simp [successTimeList]
  | cons r rs ih =>
    intro a
    rw [List.foldl_cons]
    have h := ih (stepResponse a r)
    rcases r with m | ⟨b, tok, rt⟩ | _
    · simp [stepResponse, successTimeList] at h ⊢; omega
    · cases b <;> simp [stepResponse, successTimeList] at h ⊢ <;> omega
    · simp [stepResponse, successTimeList] at h ⊢; omega

lemma analyzeResponses_counts (rs : List ProbeResponse) :
    (analyzeResponses rs).success_count + (analyzeResponses rs).error_count = rs.length := by
  simpa using foldl_step_counts rs ⟨0, 0, 0, []⟩

lemma analyzeResponses_tokens (rs : List ProbeResponse) :
    (analyzeResponses rs).total_tokens = (successTokenList rs).sum := by
  simpa using foldl_step_tokens rs ⟨0, 0, 0, []⟩

lemma analyzeResponses_times (rs : List ProbeResponse) :
    (analyzeResponses rs).response_times = successTimeList rs := by
  simpa using foldl_step_times rs ⟨0, 0, 0, []⟩

lemma analyzeResponses_success (rs : List ProbeResponse) :
    (analyzeResponses rs).success_count = (successTimeList rs).length := by
  simpa using foldl_step_success rs ⟨0, 0, 0, []⟩

/-- C2: for every completed batch at level `N` — `asyncio.gather` returns
one response per launched task, so the gathered list has length `N` — the
produced `TestResult` counts every response exactly once as a success or
an error: `success_count + error_count = N`. -/
theorem probe_outcome_conservation (N : Nat) (responses : List ProbeResponse) (t : Rat)
    (hlen : responses.length = N) :
    (test_concurrency N responses t).success_count
      + (test_concurrency N responses t).error_count = N := by
  have h := analyzeResponses_counts responses
  simpa [test_concurrency, hlen] using h

theorem probe_outcome_conservation_witness :
    (test_concurrency 3 [.exn "boom", .dict true 5 1, .other] 2).success_count
      + (test_concurrency 3 [.exn "boom", .dict true 5 1, .other] 2).error_count = 3 :=
  probe_outcome_conservation 3 [.exn "boom", .dict true 5 1, .other] 2 rfl

/-- C4: `tokens_per_second` is `total_tokens / total_time` exactly when the
batch wall-clock time is strictly positive, and `0` whenever
`total_time ≤ 0`; the division is guarded by `if total_time > 0`. -/
theorem tokens_per_second_guard (N : Nat) (responses : List ProbeResponse) (t : Rat) :
    (t ≤ 0 → (test_concurrency N responses t).tokens_per_second = 0)
      ∧ (0 < t →
          (test_concurrency N responses t).tokens_per_second
            = ((test_concurrency N responses t).total_tokens : Rat) / t) := by
  constructor
  · intro hle
    have hnot : ¬ t > 0 := not_lt.mpr hle
    simp [test_concurrency, hnot]
  · intro hpos
    simp [test_concurrency, hpos]

theorem tokens_per_second_guard_witness :
    (test_concurrency 1 [.dict true 10 1] (-1)).tokens_per_second = 0
      ∧ (test_concurrency 1 [.dict true 10 1] 2).tokens_per_second
          = ((test_concurrency 1 [.dict true 10 1] 2).total_tokens : Rat) / 2 :=
  ⟨(tokens_per_second_guard 1 [.dict true 10 1] (-1)).1 (by norm_num),
   (tokens_per_second_guard 1 [.dict true 10 1] 2).2 (by norm_num)⟩

/-- C6: a level's `total_tokens` is the sum of the token counts of the
success responses only (failures contribute nothing), and a 200 response
whose JSON lacks the `usage` field is still classified a success with a
token count of 0 (`usage.get('total_tokens', 0)` defaults). -/
theorem total_tokens_success_only :
    (∀ (N : Nat) (responses : List ProbeResponse) (t : Rat),
        (test_concurrency N responses t).total_tokens = (successTokenList responses).sum)
  ∧ (∀ (raw : String) (fields : List (String × JsonVal)) (content : JsonVal) (rt : Rat),
        lookupField fields "usage" = none →
        extractContent (.jobj fields) = some content →
        call_model_api 200 (.text raw (some (.jobj fields))) rt = .ok content 0 rt) := by
  constructor
  · intro N responses t
    simpa [test_concurrency] using analyzeResponses_tokens responses
  · intro raw fields content rt husage hcontent
    simp [call_model_api, hcontent, extractTokens, husage]

theorem total_tokens_success_only_witness :
    call_model_api 200
      (.text "r" (some (.jobj
        [("choices", .jarr [.jobj [("message", .jobj [("content", .jstr "hi")])]])]))) 1
      = .ok (.jstr "hi") 0 1 :=
  total_tokens_success_only.2 "r"
    [("choices", .jarr [.jobj [("message", .jobj [("content", .jstr "hi")])]])]
    (.jstr "hi") 1 rfl rfl

/-- C8: the average, minimum and maximum response times of a level are
computed over the response times of the successful probes only, and all
three are 0 when the level has zero successes. -/
theorem latency_stats_success_only (N : Nat) (responses : List ProbeResponse) (t : Rat) :
    ((test_concurrency N responses t).avg_response_time
        = if successTimeList responses = [] then 0
          else (successTimeList responses).sum / ((successTimeList responses).length : Rat))
  ∧ ((test_concurrency N responses t).min_response_time
        = if successTimeList responses = [] then 0 else listMin (successTimeList responses))
  ∧ ((test_concurrency N responses t).max_response_time
        = if successTimeList responses = [] then 0 else listMax (successTimeList responses))
  ∧ ((test_concurrency N responses t).success_count = 0 →
        (test_concurrency N responses t).avg_response_time = 0
      ∧ (test_concurrency N responses t).min_response_time = 0
      ∧ (test_concurrency N responses t).max_response_time = 0) := by
  have ht := analyzeResponses_times responses
  have hs := analyzeResponses_success responses
  refine ⟨by simp [test_concurrency, ht], by simp [test_concurrency, ht],
          by simp [test_concurrency, ht], ?_⟩
  intro h0
  have hlen : (successTimeList responses).length = 0 := by
    have : (analyzeResponses responses).success_count = 0 := by
      simpa [test_concurrency] using h0
    omega
  have hnil : successTimeList responses = [] := List.length_eq_zero.mp hlen
  exact ⟨by simp [test_concurrency, ht, hnil], by simp [test_concurrency, ht, hnil],
         by simp [test_concurrency, ht, hnil]⟩

theorem latency_stats_success_only_witness :
    (test_concurrency 2 [.exn "e", .dict false 0 3] 1).avg_response_time = 0
  ∧ (test_concurrency 2 [.exn "e", .dict false 0 3] 1).min_response_time = 0
  ∧ (test_concurrency 2 [.exn "e", .dict false 0 3] 1).max_response_time = 0 :=
  (latency_stats_success_only 2 [.exn "e", .dict false 0 3] 1).2.2.2 (by decide)

/-- C10: a probe response is classified a success only when the HTTP
status code is exactly 200; any other status — other 2xx codes
included — produces a failure dict. -/
theorem success_only_status_200 :
    (∀ (status : Nat) (body : Body) (rt : Rat), status ≠ 200 →
        ∃ e, call_model_api status body rt = .err e rt)
  ∧ (∀ (status : Nat) (body : Body) (rt : Rat) (content : JsonVal) (tokens : Int),
        call_model_api status body rt = .ok content tokens rt → status = 200) := by
  constructor
  · intro status body rt hne
    rcases body with _ | ⟨raw, parsed⟩
    · exact ⟨"UnicodeDecodeError", rfl⟩
    · exact ⟨s!"HTTP {status}: {raw}", by simp [call_model_api, hne]⟩
  · intro status body rt content tokens h
    by_contra hne
    rcases body with _ | ⟨raw, parsed⟩
    · simp [call_model_api] at h
    · simp [call_model_api, hne] at h

theorem success_only_status_200_witness :
    ∃ e, call_model_api 201 (.text "Created" none) 1 = .err e 1 :=
  success_only_status_200.1 201 (.text "Created" none) 1 (by decide)

/-- The Unicode replacement character U+FFFD. -/
def replacementChar : Char := '�'

/-- A content string containing the replacement character. -/
def fffdContent : String := "ab�"

/-- A well-formed 200-response body whose content contains the replacement
character. -/
def fffdBody : Body :=
  .text "raw" (some (.jobj
    [("choices", .jarr [.jobj [("message", .jobj [("content", .jstr fffdContent)])]]),
     ("usage", .jobj [("total_tokens", .jnum 42)])]))

/-- C3 counterexample: `call_model_api` performs no replacement-character
check — a 200 response whose JSON content contains U+FFFD is classified a
success, not a failure, refuting the claim that such content yields a
Failure outcome. -/
theorem replacement_char_classified_success :
    replacementChar ∈ fffdContent.toList
      ∧ call_model_api 200 fffdBody 1 = .ok (.jstr fffdContent) 42 1 :=
  ⟨by decide, rfl⟩

/-- C3 (amended): every probe fault is caught inside `call_model_api` and
returned as a failure dict — a non-200 status yields the error string
`HTTP status: body`, an undecodable body / unparseable JSON / missing
required fields yield the raw exception text — and the call always
returns a success or failure value, never raising; but the error values
are raw messages rather than a classified taxonomy, and JSON containing
the Unicode replacement character is not detected (such a 200 response is
classified a success). -/
theorem probe_error_classification :
    (∀ (status : Nat) (raw : String) (parsed : Option JsonVal) (rt : Rat), status ≠ 200 →
        call_model_api status (.text raw parsed) rt = .err (s!"HTTP {status}: {raw}") rt)
  ∧ (∀ (status : Nat) (rt : Rat),
        call_model_api status .undecodable rt = .err "UnicodeDecodeError" rt)
  ∧ (∀ (raw : String) (rt : Rat),
        call_model_api 200 (.text raw none) rt = .err "JSONDecodeError" rt)
  ∧ (∀ (raw : String) (data : JsonVal) (rt : Rat), extractContent data = none →
        call_model_api 200 (.text raw (some data)) rt = .err "KeyError" rt)
  ∧ (∀ (status : Nat) (body : Body) (rt : Rat),
        (∃ c n, call_model_api status body rt = .ok c n rt)
      ∨ (∃ e, call_model_api status body rt = .err e rt)) := by
  refine ⟨?_, ?_, ?_, ?_, ?_⟩
  · intro status raw parsed rt hne
    simp [call_model_api, hne]
  · intro status rt; rfl
  · intro raw rt; rfl
  · intro raw data rt hc
    simp [call_model_api, hc]
  · intro status body rt
    rcases body with _ | ⟨raw, parsed⟩
    · exact Or.inr ⟨"UnicodeDecodeError", rfl⟩
    · by_cases hs : status = 200
      · subst hs
        rcases parsed with _ | data
        · exact Or.inr ⟨"JSONDecodeError", rfl⟩
        · rcases hc : extractContent data with _ | content
          · exact Or.inr ⟨"KeyError", by simp [call_model_api, hc]⟩
          · rcases htok : extractTokens data with _ | tokens
            · exact Or.inr ⟨"AttributeError", by simp [call_model_api, hc, htok]⟩
            · exact Or.inl ⟨content, tokens, by simp [call_model_api, hc, htok]⟩
      · exact Or.inr ⟨s!"HTTP {status}: {raw}", by simp [call_model_api, hs]⟩

theorem probe_error_classification_witness :
    call_model_api 500 (.text "oops" none) 2 = .err "HTTP 500: oops" 2 :=
  probe_error_classification.1 500 "oops" none 2 (by decide)

/-- A level at which every probe fails: `n` failure dicts. -/
def failProbes (n : Nat) : List ProbeResponse := List.replicate n (.dict false 0 1)

/-- C1 counterexample: with levels `[5, 8]` and every probe failing, the
sweep still runs level 8 after the total failure at level 5 — the result
list has an entry for both levels and the level-5 entry is an ordinary
`TestResult` with zero successes, not an escalation; this refutes the
claim that the sweep does not proceed to the next configured level. -/
theorem sweep_continues_after_all_failed :
    ((run_all_tests [5, 8] failProbes (fun _ => 1)).map TestResult.concurrency = [5, 8])
  ∧ ((run_all_tests [5, 8] failProbes (fun _ => 1)).map TestResult.success_count = [0, 0])
  ∧ ((run_all_tests [5, 8] failProbes (fun _ => 1)).map TestResult.error_count = [5, 8]) := by
  refine ⟨by decide, by decide, by decide⟩

lemma successTimeList_of_all_failed (responses : List ProbeResponse)
    (hfail : ∀ r ∈ responses, isSuccessResp r = false) :
    successTimeList responses = [] := by
  rw [successTimeList, List.filterMap_eq_nil_iff]
  intro r hr
  have h := hfail r hr
  rcases r with m | ⟨b, tok, rt⟩ | _
  · rfl
  · simp [isSuccessResp] at h; simp [h]
  · rfl

lemma successTokenList_of_all_failed (responses : List ProbeResponse)
    (hfail : ∀ r ∈ responses, isSuccessResp r = false) :
    successTokenList responses = [] := by
  rw [successTokenList, List.filterMap_eq_nil_iff]
  intro r hr
  have h := hfail r hr
  rcases r with m | ⟨b, tok, rt⟩ | _
  · rfl
  · simp [isSuccessResp] at h; simp [h]
  · rfl

/-- C1 (amended): when all `N` probes of a level fail, `test_concurrency`
returns an ordinary `TestResult` with zero successes, `N` errors, zero
tokens and a rate of 0 — no distinguishable all-failed signal — and
`run_all_tests` continues through every configured level regardless,
producing one result per level. -/
theorem all_failed_level_result (N : Nat) (responses : List ProbeResponse) (t : Rat)
    (hlen : responses.length = N)
    (hfail : ∀ r ∈ responses, isSuccessResp r = false) :
    (test_concurrency N responses t).success_count = 0
  ∧ (test_concurrency N responses t).error_count = N
  ∧ (test_concurrency N responses t).total_tokens = 0
  ∧ (test_concurrency N responses t).tokens_per_second = 0
  ∧ ∀ (levels : List Nat) (probes : Nat → List ProbeResponse) (elapsed : Nat → Rat),
      (run_all_tests levels probes elapsed).length = levels.length := by
  have htimes := successTimeList_of_all_failed responses hfail
  have htoks := successTokenList_of_all_failed responses hfail
  have hsucc : (analyzeResponses responses).success_count = 0 := by
    rw [analyzeResponses_success, htimes]; rfl
  have herr : (analyzeResponses responses).error_count = N := by
    have := analyzeResponses_counts responses
    omega
  have htok0 : (analyzeResponses responses).total_tokens = 0 := by
    rw [analyzeResponses_tokens, htoks]; rfl
  refine ⟨by simpa [test_concurrency] using hsucc,
          by simpa [test_concurrency] using herr,
          by simpa [test_concurrency] using htok0, ?_, ?_⟩
  · by_cases hpos : t > 0
    · simp [test_concurrency, hpos, htok0]
    · simp [test_concurrency, hpos]
  · intro levels probes elapsed
    simp [run_all_tests]

theorem all_failed_level_result_witness :
    (test_concurrency 5 (failProbes 5) 1).success_count = 0
  ∧ (test_concurrency 5 (failProbes 5) 1).error_count = 5
  ∧ (test_concurrency 5 (failProbes 5) 1).tokens_per_second = 0 :=
  ⟨(all_failed_level_result 5 (failProbes 5) 1 rfl (by decide)).1,
   (all_failed_level_result 5 (failProbes 5) 1 rfl (by decide)).2.1,
   (all_failed_level_result 5 (failProbes 5) 1 rfl (by decide)).2.2.2.1⟩

/-- C5: the implemented scaling-efficiency expression
`(rate(L)·L)/(rate(baseline)·L)·100` (guarded by `expected > 0`) is equal,
for a positive level and a non-negative baseline rate, to the simplified
`rate(L)/rate(baseline)·100`, and falls back to 0 exactly when the
baseline rate is 0; no clamping above 100% is applied. -/
theorem scaling_efficiency_simplified (rb rL : Rat) (L : Nat)
    (hL : 0 < L) (hrb : 0 ≤ rb) :
    scalingEfficiency rb rL L = if rb = 0 then 0 else rL / rb * 100 := by
  by_cases h0 : rb = 0
  · simp [scalingEfficiency, h0]
  · have hrbpos : 0 < rb := lt_of_le_of_ne hrb (Ne.symm h0)
    have hLpos : (0 : Rat) < (L : Rat) := by exact_mod_cast hL
    have hexp : 0 < rb * (L : Rat) := mul_pos hrbpos hLpos
    have hLne : (L : Rat) ≠ 0 := ne_of_gt hLpos
    simp only [scalingEfficiency, if_pos hexp, if_neg h0]
    rw [mul_div_mul_right rL rb hLne]

theorem scaling_efficiency_simplified_witness : scalingEfficiency 10 18 2 = 180 := by
  rw [scaling_efficiency_simplified 10 18 2 (by norm_num) (by norm_num)]
  norm_num

/-- C9: the aggregation underlying `generate_text_report` is a pure
function of the result list — the clock reading used for the report
header (the only other varying input) does not influence the computed
summary, so two calls on the same unchanged results yield identical
summaries. -/
theorem summarize_pure_function (now1 now2 : String) (results : List TestResult) :
    (generateReportData now1 results).summary = (generateReportData now2 results).summary
      ∧ (generateReportData now1 results).summary = computeSummary results :=
  ⟨rfl, rfl⟩

lemma bestResult_decomp (rs : List TestResult) :
    ∀ r : TestResult, ∃ l₁ l₂,
      r :: rs = l₁ ++ bestResult r rs :: l₂
      ∧ (∀ a ∈ l₁, a.tokens_per_second < (bestResult r rs).tokens_per_second)
      ∧ (∀ a ∈ l₂, a.tokens_per_second ≤ (bestResult r rs).tokens_per_second) := by
  induction rs with
  | nil =>
    intro r
    exact ⟨[], [], rfl, by simp, by simp⟩
  | cons x xs ih =>
    intro r
    by_cases hx : x.tokens_per_second > r.tokens_per_second
    · obtain ⟨l₁, l₂, heq, h₁, h₂⟩ := ih x
      have hb : bestResult r (x :: xs) = bestResult x xs := by
        simp [bestResult, hx]
      have hxle : x.tokens_per_second ≤ (bestResult x xs).tokens_per_second := by
        have hxmem : x ∈ x :: xs := List.mem_cons_self x xs
        rw [heq] at hxmem
        rcases List.mem_append.mp hxmem with hmem | hmem
        · exact le_of_lt (h₁ x hmem)
        · rcases List.mem_cons.mp hmem with heq2 | hmem
          · exact le_of_eq (congrArg TestResult.tokens_per_second heq2)
          · exact h₂ x hmem
      refine ⟨r :: l₁, l₂, ?_, ?_, ?_⟩
      · rw [hb, List.cons_append, ← heq]
      · intro a ha
        rcases List.mem_cons.mp ha with rfl | ha
        · rw [hb]; exact lt_of_lt_of_le hx hxle
        · rw [hb]; exact h₁ a ha
      · intro a ha
        rw [hb]; exact h₂ a ha
    · obtain ⟨l₁, l₂, heq, h₁, h₂⟩ := ih r
      have hb : bestResult r (x :: xs) = bestResult r xs := by
        simp [bestResult, hx]
      have hxr : x.tokens_per_second ≤ r.tokens_per_second := not_lt.mp hx
      cases l₁ with
      | nil =>
        simp only [List.nil_append] at heq
        have hbest : r = bestResult r xs := (List.cons.injEq _ _ _ _ ▸ heq : _ ∧ _).1
        have hl2 : xs = l₂ := (List.cons.injEq _ _ _ _ ▸ heq : _ ∧ _).2
        refine ⟨[], x :: xs, ?_, by simp, ?_⟩
        · rw [hb, List.nil_append, ← hbest]
        · intro a ha
          rcases List.mem_cons.mp ha with rfl | ha
          · rw [hb, ← hbest]; exact hxr
          · rw [hb]
            exact h₂ a (hl2 ▸ ha)
      | cons c t =>
        rw [List.cons_append] at heq
        have hc : r = c := (List.cons.injEq _ _ _ _ ▸ heq : _ ∧ _).1
        have hxs : xs = t ++ bestResult r xs :: l₂ := (List.cons.injEq _ _ _ _ ▸ heq : _ ∧ _).2
        have hrlt : r.tokens_per_second < (bestResult r xs).tokens_per_second := by
          have hcmem : c ∈ c :: t := List.mem_cons_self c t
          rw [congrArg TestResult.tokens_per_second hc]
          exact h₁ c hcmem
        refine ⟨r :: x :: t, l₂, ?_, ?_, ?_⟩
        · rw [hb, List.cons_append, List.cons_append, ← hxs]
        · intro a ha
          rcases List.mem_cons.mp ha with rfl | ha
          · rw [hb]; exact hrlt
          · rcases List.mem_cons.mp ha with rfl | ha
            · rw [hb]; exact lt_of_le_of_lt hxr hrlt
            · rw [hb]
              exact h₁ a (List.mem_cons_of_mem c ha)
        · intro a ha
          rw [hb]; exact h₂ a ha

/-- C7: for every non-empty result sequence, `best_concurrency` (Python
`max` keyed on `tokens_per_second`) returns the first occurrence of the
maximal rate — everything before it is strictly smaller, everything after
it is no larger — and therefore, when the sequence is ordered by
ascending concurrency, ties go to the lowest concurrency level. -/
theorem best_result_stable_argmax (r : TestResult) (rs : List TestResult) :
    ∃ l₁ l₂,
      r :: rs = l₁ ++ bestResult r rs :: l₂
      ∧ (∀ a ∈ l₁, a.tokens_per_second < (bestResult r rs).tokens_per_second)
      ∧ (∀ a ∈ l₂, a.tokens_per_second ≤ (bestResult r rs).tokens_per_second)
      ∧ (List.Pairwise (fun u v : TestResult => u.concurrency ≤ v.concurrency) (r :: rs) →
          ∀ a ∈ r :: rs,
            a.tokens_per_second = (bestResult r rs).tokens_per_second →
              (bestResult r rs).concurrency ≤ a.concurrency) := by
  obtain ⟨l₁, l₂, heq, h₁, h₂⟩ := bestResult_decomp rs r
  refine ⟨l₁, l₂, heq, h₁, h₂, ?_⟩
  intro hp a ha htie
  rw [heq] at hp ha
  rcases List.mem_append.mp ha with hmem | hmem
  · exact absurd htie (ne_of_lt (h₁ a hmem))
  · rcases List.mem_cons.mp hmem with rfl | hmem
    · exact le_refl _
    · have hpb := (List.pairwise_append.mp hp).2.1
      exact (List.pairwise_cons.mp hpb).1 a hmem

/-- A minimal result carrying only a level and a rate. -/
def sampleResult (c : Nat) (tps : Rat) : TestResult :=
  ⟨c, 0, 0, tps, 0, 0, 0, 0, 0⟩

theorem best_result_stable_argmax_witness :
    (bestResult (sampleResult 1 10) [sampleResult 2 10]).concurrency
      ≤ (sampleResult 2 10).concurrency := by
  obtain ⟨l₁, l₂, heq, h₁, h₂, htie⟩ :=
    best_result_stable_argmax (sampleResult 1 10) [sampleResult 2 10]
  exact htie (by decide) (sampleResult 2 10) (by decide) (by decide)
